import Mathlib

/-!
Shallow embedding of the phishing-email agent's classification pipeline
(agent/utils.py, agent/config.py, agent/email_agent.py, llm/cache.py,
llm/client.py), together with theorems settling the frozen claims.

Conventions: Python floats and timestamps are modelled as rationals,
Python `None` as `Option.none`, raised exceptions as `Except.error` or a
`none` result where the source catches them.  External collaborators
(json.loads, float(), sha256, the Gemini/OpenAI transport) are passed in
as explicit function parameters; everything written in the repository
itself is translated concretely.
-/

/-- Word character for the regex `\b` boundary (re module, ASCII inputs). -/
def isWordChar (c : Char) : Bool :=
  c.isAlpha || c.isDigit || c == '_'

/-- Python `\s` whitespace class (ASCII part). -/
def isSpaceChar (c : Char) : Bool :=
  c == ' ' || c == '\t' || c == '\n' || c == '\r' || c == '\x0b' || c == '\x0c'

/-- Boundary test `\b` between an optional previous character and an
optional current character: true when exactly one side is a word char. -/
def wordBoundary (prev cur : Option Char) : Bool :=
  (prev.elim false isWordChar) != (cur.elim false isWordChar)

/-- Python `needle in haystack` on strings: substring containment. -/
def pyIn (needle haystack : List Char) : Bool :=
  needle.isPrefixOf haystack ||
    match haystack with
    | [] => needle.isEmpty
    | _ :: t => pyIn needle t

/-- Python `str.lower()` (ASCII; written over the character list so that
it reduces inside the kernel). -/
def pyLower (s : String) : String :=
  String.mk (s.toList.map Char.toLower)

/-- Python slice `s[:n]`. -/
def pyTake (s : String) (n : Nat) : String :=
  String.mk (s.toList.take n)

/-- Python slice `s[n:]`. -/
def pyDrop (s : String) (n : Nat) : String :=
  String.mk (s.toList.drop n)

/-- Python slice `s[:-n]` for `n ≤ len(s)`. -/
def pyDropRight (s : String) (n : Nat) : String :=
  String.mk (s.toList.take (s.toList.length - n))

/-- Python `str.startswith`. -/
def pyStartsWith (s pre : String) : Bool :=
  pre.toList.isPrefixOf s.toList

/-- Python `str.endswith`. -/
def pyEndsWith (s suf : String) : Bool :=
  suf.toList.isSuffixOf s.toList

/-- Python `str.strip()` (ASCII whitespace). -/
def pyStrip (s : String) : String :=
  String.mk (((s.toList.dropWhile isSpaceChar).reverse.dropWhile isSpaceChar).reverse)

/-- Character class `[A-Za-z0-9._%+-]` of the e-mail local part in
`redact_pii` (agent/utils.py). -/
def isLocalChar (c : Char) : Bool :=
  c.isAlpha || c.isDigit || c == '.' || c == '_' || c == '%' || c == '+' || c == '-'

/-- Character class `[A-Za-z0-9.-]` of the e-mail domain part. -/
def isDomainChar (c : Char) : Bool :=
  c.isAlpha || c.isDigit || c == '.' || c == '-'

/-- Character class `[A-Z|a-z]` of the e-mail TLD part (the source regex
literally includes the pipe character in the class). -/
def isTldChar (c : Char) : Bool :=
  c.isAlpha || c == '|'

/-- Match `[A-Z|a-z]{2,}\b` at the front of `cs`: greedy on the TLD run,
backtracking down to two characters until the trailing boundary holds.
Returns the number of characters consumed. -/
def matchTld (cs : List Char) : Option Nat :=
  let run := cs.takeWhile isTldChar
  let rest := cs.drop run.length
  go run.length run rest
where
  /-- Try TLD length `j`, longest first, requiring a `\b` after it. -/
  go : Nat → List Char → List Char → Option Nat
    | 0, _, _ => none
    | 1, _, _ => none
    | j + 1, run, rest =>
      let lastc := run.get? j
      let nextc := if j + 1 = run.length then rest.head? else run.get? (j + 1)
      if wordBoundary lastc nextc then some (j + 1)
      else go j run rest

/-- Match `[A-Za-z0-9.-]+\.[A-Z|a-z]{2,}\b` at the front of `cs`,
trying the longest domain run first as the regex engine does. -/
def matchDomainTail (cs : List Char) : Option Nat :=
  let m := (cs.takeWhile isDomainChar).length
  go m cs
where
  /-- Try domain length `k`, longest first. -/
  go : Nat → List Char → Option Nat
    | 0, _ => none
    | k + 1, cs =>
      match cs.drop (k + 1) with
      | '.' :: r2 =>
        match matchTld r2 with
        | some j => some ((k + 1) + 1 + j)
        | none => go k cs
      | _ => go k cs

/-- Match the e-mail regex
`\b[A-Za-z0-9._%+-]+@[A-Za-z0-9.-]+\.[A-Z|a-z]{2,}\b` at the current
position, given the previous character for the leading boundary. -/
def matchEmailAt (prev : Option Char) (cs : List Char) : Option Nat :=
  if !wordBoundary prev cs.head? then none
  else
    let loc := cs.takeWhile isLocalChar
    if loc.isEmpty then none
    else
      match cs.drop loc.length with
      | '@' :: after =>
        match matchDomainTail after with
        | some k => some (loc.length + 1 + k)
        | none => none
      | _ => none

/-- One `re.sub` pass for the e-mail pattern: scan left to right over the
original text, replace each non-overlapping match with the placeholder,
resume after the match end.  The fuel argument (instantiated with the
text length) only serves structural termination; every step consumes at
least one character, so it never runs out. -/
def subEmail (repl : List Char) : Nat → Option Char → List Char → List Char
  | 0, _, cs => cs
  | _ + 1, _, [] => []
  | fuel + 1, prev, c :: rest =>
    match matchEmailAt prev (c :: rest) with
    | some n =>
      if n = 0 then c :: subEmail repl fuel (some c) rest
      else repl ++ subEmail repl fuel ((c :: rest).get? (n - 1)) ((c :: rest).drop n)
    | none => c :: subEmail repl fuel (some c) rest

/-- Atoms of the fixed-shape digit patterns in `redact_pii` (phone, card,
SSN).  Matching is deterministic because every `\s*` / `[\s-]?` atom is
followed by a digit atom, whose character sets are disjoint. -/
inductive PatAtom
  | digits (n : Nat)
  | lit (c : Char)
  | wsStar
  | wsDashOpt
deriving Repr

/-- Match a sequence of atoms at the front of `cs`, returning the number
of characters consumed. -/
def matchAtoms : List PatAtom → List Char → Option Nat
  | [], _ => some 0
  | PatAtom.digits n :: ps, cs =>
    let run := cs.take n
    if run.length = n && run.all Char.isDigit then
      (matchAtoms ps (cs.drop n)).map (· + n)
    else none
  | PatAtom.lit c :: ps, cs =>
    match cs with
    | c' :: rest => if c' == c then (matchAtoms ps rest).map (· + 1) else none
    | [] => none
  | PatAtom.wsStar :: ps, cs =>
    let run := (cs.takeWhile isSpaceChar).length
    (matchAtoms ps (cs.drop run)).map (· + run)
  | PatAtom.wsDashOpt :: ps, cs =>
    match cs with
    | c' :: rest =>
      if isSpaceChar c' || c' == '-' then (matchAtoms ps rest).map (· + 1)
      else matchAtoms ps cs
    | [] => matchAtoms ps cs

/-- One `re.sub` pass for a `\b <atoms> \b` pattern (all the phone, card
and SSN patterns have word boundaries at both ends).  Fuel as in
`subEmail`. -/
def subShape (pat : List PatAtom) (repl : List Char) : Nat → Option Char → List Char → List Char
  | 0, _, cs => cs
  | _ + 1, _, [] => []
  | fuel + 1, prev, c :: rest =>
    match matchAtoms pat (c :: rest) with
    | some n =>
      if n = 0 then c :: subShape pat repl fuel (some c) rest
      else
        let lastc := (c :: rest).get? (n - 1)
        let nextc := (c :: rest).get? n
        if wordBoundary prev (some c) && wordBoundary lastc nextc then
          repl ++ subShape pat repl fuel lastc ((c :: rest).drop n)
        else c :: subShape pat repl fuel (some c) rest
    | none => c :: subShape pat repl fuel (some c) rest

/-- Run one substitution pass over a whole string. -/
def runSubEmail (s : String) : String :=
  String.mk (subEmail "[EMAIL_REDACTED]".toList s.toList.length none s.toList)

/-- Run one fixed-shape substitution pass over a whole string. -/
def runSubShape (pat : List PatAtom) (repl : String) (s : String) : String :=
  String.mk (subShape pat repl.toList s.toList.length none s.toList)

/-- Phone pattern `\b\d{3}-\d{3}-\d{4}\b`. -/
def phonePat1 : List PatAtom :=
  [.digits 3, .lit '-', .digits 3, .lit '-', .digits 4]

/-- Phone pattern `\b\(\d{3}\)\s*\d{3}-\d{4}\b`. -/
def phonePat2 : List PatAtom :=
  [.lit '(', .digits 3, .lit ')', .wsStar, .digits 3, .lit '-', .digits 4]

/-- Phone pattern `\b\d{3}\.\d{3}\.\d{4}\b`. -/
def phonePat3 : List PatAtom :=
  [.digits 3, .lit '.', .digits 3, .lit '.', .digits 4]

/-- Phone pattern `\b\+1\s*\d{3}\s*\d{3}\s*\d{4}\b`. -/
def phonePat4 : List PatAtom :=
  [.lit '+', .lit '1', .wsStar, .digits 3, .wsStar, .digits 3, .wsStar, .digits 4]

/-- Card pattern `\b\d{4}[\s-]?\d{4}[\s-]?\d{4}[\s-]?\d{4}\b`. -/
def cardPat : List PatAtom :=
  [.digits 4, .wsDashOpt, .digits 4, .wsDashOpt, .digits 4, .wsDashOpt, .digits 4]

/-- SSN pattern `\b\d{3}-\d{2}-\d{4}\b`. -/
def ssnPat : List PatAtom :=
  [.digits 3, .lit '-', .digits 2, .lit '-', .digits 4]

/-- Embedding of `redact_pii` (agent/utils.py): e-mail addresses, four
phone layouts, 16-digit card numbers, and SSN-shaped groups are replaced
in sequence by fixed placeholder tokens.  Empty input is returned as is. -/
def redact_pii (text : String) : String :=
  if text = "" then text
  else
    let t := runSubEmail text
    let t := runSubShape phonePat1 "[PHONE_REDACTED]" t
    let t := runSubShape phonePat2 "[PHONE_REDACTED]" t
    let t := runSubShape phonePat3 "[PHONE_REDACTED]" t
    let t := runSubShape phonePat4 "[PHONE_REDACTED]" t
    let t := runSubShape cardPat "[CARD_REDACTED]" t
    let t := runSubShape ssnPat "[SSN_REDACTED]" t
    t

example : redact_pii "contact me at a@b.com" = "contact me at [EMAIL_REDACTED]" := by decide
example : redact_pii "call 123-456-7890" = "call [PHONE_REDACTED]" := by decide
example : redact_pii "lien he a@b.vn" = "lien he [EMAIL_REDACTED]" := by decide

/-- Character class of the URL regexes in `extract_urls`
(agent/utils.py): `[a-zA-Z]`, `[0-9]`, `[$-_@.&+]` (an ASCII range from
0x24 to 0x5F), `[!*\\(\\),]`, or a percent-escape whose characters are
already contained in the range. -/
def isUrlChar (c : Char) : Bool :=
  c.isAlpha || c.isDigit || ('$' ≤ c && c ≤ '_') ||
    c == '!' || c == '*' || c == '\\' || c == '(' || c == ')' || c == ','

/-- Consume `pat` (given in lowercase) case-insensitively at the front of
`cs`, returning the remaining characters. -/
def matchCI : List Char → List Char → Option (List Char)
  | [], cs => some cs
  | _ :: _, [] => none
  | p :: ps, c :: cs => if c.toLower == p then matchCI ps cs else none

/-- Match `http[s]?://(?:urlchar)+` at the front of `cs` (IGNORECASE),
returning the match length.  The optional `s` is greedy with backtracking
as in the re module. -/
def matchHttpAt (cs : List Char) : Option Nat :=
  match matchCI "http".toList cs with
  | none => none
  | some rest =>
    let tryTail : Nat → List Char → Option Nat := fun consumed r =>
      match matchCI "://".toList r with
      | none => none
      | some r2 =>
        let run := r2.takeWhile isUrlChar
        if run.isEmpty then none else some (consumed + 3 + run.length)
    match rest with
    | s :: r2 =>
      if s.toLower == 's' then
        match tryTail 5 r2 with
        | some n => some n
        | none => tryTail 4 rest
      else tryTail 4 rest
    | [] => tryTail 4 rest

/-- Match `www\.(?:urlchar)+` at the front of `cs` (IGNORECASE). -/
def matchWwwAt (cs : List Char) : Option Nat :=
  match matchCI "www.".toList cs with
  | none => none
  | some rest =>
    let run := rest.takeWhile isUrlChar
    if run.isEmpty then none else some (4 + run.length)

/-- `re.findall` driver: scan left to right, collect non-overlapping
matches of `matchAt`, resuming after each match.  Fuel as in `subEmail`. -/
def scanAll (matchAt : List Char → Option Nat) : Nat → List Char → List String
  | 0, _ => []
  | _ + 1, [] => []
  | fuel + 1, c :: rest =>
    match matchAt (c :: rest) with
    | some (n + 1) =>
      String.mk ((c :: rest).take (n + 1)) :: scanAll matchAt fuel ((c :: rest).drop (n + 1))
    | _ => scanAll matchAt fuel rest

/-- Embedding of `extract_urls` (agent/utils.py): `scheme://` matches plus
`www.` matches prefixed with `http://`, de-duplicated.  The source builds
`list(set(urls))`, whose order is unspecified; we model it with
`List.dedup`, so only membership and cardinality are meaningful. -/
def extract_urls (text : String) : List String :=
  if text = "" then []
  else
    let cs := text.toList
    let urls := scanAll matchHttpAt cs.length cs
    let www_urls := scanAll matchWwwAt cs.length cs
    (urls ++ www_urls.map (fun u => "http://" ++ u)).dedup

/-- The fixed suspicious-keyword list of agent/utils.py. -/
def SUSPICIOUS_KEYWORDS : List String :=
  ["urgent", "immediately", "verify", "confirm", "suspended", "expired",
   "click here", "act now", "limited time", "verify account", "update payment",
   "security alert", "unusual activity", "locked account", "winner",
   "congratulations", "prize", "free", "bonus", "claim", "lottery",
   "inheritance", "million", "bitcoin", "cryptocurrency", "investment",
   "prince", "nigeria", "transfer", "beneficiary", "confidential"]

/-- Embedding of `count_suspicious_keywords` (agent/utils.py): the number
of distinct keywords occurring case-insensitively as substrings. -/
def count_suspicious_keywords (text : String) : Nat :=
  if text = "" then 0
  else SUSPICIOUS_KEYWORDS.countP (fun k => pyIn (pyLower k).toList (pyLower text).toList)

/-- The fixed domain blacklist of agent/utils.py. -/
def BLACKLIST_DOMAINS : List String :=
  ["phishing-example.com", "malicious-site.net", "fake-bank.org", "scam-site.com"]

/-- Scheme characters accepted by `urllib.parse` after the initial
letter. -/
def isSchemeChar (c : Char) : Bool :=
  c.isAlpha || c.isDigit || c == '+' || c == '-' || c == '.'

/-- Model of `urllib.parse.urlparse(url).netloc`: strip a
`letter(alnum|+|-|.)* :` scheme, then if the remainder starts with `//`
take everything up to the next `/`, `?` or `#`, otherwise return the
empty string. -/
def urlparse_netloc (url : String) : String :=
  let cs := url.toList
  let rest :=
    match cs with
    | c :: _ =>
      if c.isAlpha then
        let run := cs.takeWhile isSchemeChar
        match cs.drop run.length with
        | ':' :: r => r
        | _ => cs
      else cs
    | [] => cs
  match rest with
  | '/' :: '/' :: r =>
    String.mk (r.takeWhile (fun c => !(c == '/' || c == '?' || c == '#')))
  | _ => ""

/-- Embedding of `check_blacklist` (agent/utils.py): lower-case each
URL's host, strip a leading `www.`, and test membership in
`BLACKLIST_DOMAINS`. -/
def check_blacklist (urls : List String) : Bool :=
  urls.any (fun url =>
    let domain := pyLower (urlparse_netloc url)
    let domain := if pyStartsWith domain "www." then pyDrop domain 4 else domain
    BLACKLIST_DOMAINS.contains domain)

/-- The derived feature record of `extract_features` (agent/utils.py). -/
structure Features where
  subject_length : Nat
  body_length : Nat
  char_count : Nat
  has_html : Bool
  url_count : Nat
  exclamation_count : Nat
  question_count : Nat
  caps_ratio : ℚ
  has_attachments : Bool
deriving Repr, DecidableEq

/-- Existence of a match of `<[^>]+>`: a `<`, at least one character
other than `>`, then a `>`. -/
def hasHtmlTag : List Char → Bool
  | [] => false
  | c :: rest =>
    (c == '<' &&
      (let run := rest.takeWhile (fun d => d != '>')
       !run.isEmpty && !(rest.drop run.length).isEmpty)) || hasHtmlTag rest

/-- Embedding of `extract_features` (agent/utils.py).  Each field keeps
the source's empty-input guard. -/
def extract_features (subject body : String) : Features where
  subject_length := if subject = "" then 0 else subject.length
  body_length := if body = "" then 0 else body.length
  char_count := if body = "" then 0 else body.length
  has_html := if body = "" then false else hasHtmlTag body.toList
  url_count := if body = "" then 0 else (extract_urls body).length
  exclamation_count := if body = "" then 0 else body.toList.countP (· == '!')
  question_count := if body = "" then 0 else body.toList.countP (· == '?')
  caps_ratio :=
    if body = "" then 0 else ((body.toList.countP Char.isUpper : ℚ) / (body.length : ℚ))
  has_attachments :=
    if body = "" then false
    else ["attachment", "attached", "file", "document"].any
      (fun k => pyIn k.toList (pyLower body).toList)

example : extract_urls "go to http://WWW.Example-Bad.com/x now" =
    ["http://WWW.Example-Bad.com/x"] := by decide
example : count_suspicious_keywords "URGENT: verify now" = 2 := by decide
example : check_blacklist ["http://www.Fake-Bank.org/a"] = true := by decide

/-!
RateLimiter (llm/client.py).  Timestamps are rationals; the deque is a
list ordered as appended.  `time.sleep(wait_time)` advances the clock by
exactly `wait_time`, after which the recursive re-check runs with
`now = head + window`.  Because the re-check's own prune then drops the
head (`head <= head`), the recursive call below passes the tail, which is
what the source's self-call computes on; this also gives structural
termination.  `none` models the source raising (IndexError on an empty
deque when `max_requests = 0`, or unbounded recursion).
-/

/-- Worker for `wait_if_needed`: prune timestamps older than the window;
if the pruned count still reaches `max_requests`, sleep
`wait_time = time_window - (now - head)` until the oldest timestamp ages
out and re-check (the source's recursive self-call, whose own prune
necessarily drops that oldest timestamp because the clock has advanced
to exactly `head + time_window`, so the call here passes the tail);
otherwise record the current time.  The source guards the sleep with
`wait_time > 0`, but a timestamp surviving the prune satisfies
`head > now - time_window`, so `wait_time` is always strictly positive
in this branch and the guard's fall-through (append without waiting) is
dead code.  The fuel argument only serves structural termination;
`reqs.length + 1` always suffices when `max_requests ≥ 1`
(`waitAux_succeeds`), and running out models the source raising
(IndexError on an empty deque when `max_requests = 0`). -/
def waitAux (max_requests : ℕ) (time_window : ℚ) :
    ℕ → List ℚ → ℚ → Option (List ℚ × ℚ)
  | 0, _, _ => none
  | fuel + 1, reqs, now =>
    let pruned := reqs.dropWhile (fun t => decide (t ≤ now - time_window))
    if max_requests ≤ pruned.length then
      match pruned with
      | [] => none
      | h :: rest => waitAux max_requests time_window fuel rest (h + time_window)
    else some (pruned ++ [now], now)

/-- Embedding of `RateLimiter.wait_if_needed`: returns the new deque and
the time at which the request was recorded. -/
def wait_if_needed (max_requests : ℕ) (time_window : ℚ)
    (reqs : List ℚ) (now : ℚ) : Option (List ℚ × ℚ) :=
  waitAux max_requests time_window (reqs.length + 1) reqs now

/-- Number of recorded timestamps lying within the trailing window at
instant `t`. -/
def countWithin (time_window t : ℚ) (reqs : List ℚ) : ℕ :=
  (reqs.filter (fun s => decide (t - time_window < s) && decide (s ≤ t))).length

example : wait_if_needed 1 10 [5] 6 = some ([15], 15) := by
  norm_num [wait_if_needed, waitAux, List.dropWhile]
example : wait_if_needed 2 10 [5] 6 = some ([5, 6], 6) := by
  norm_num [wait_if_needed, waitAux, List.dropWhile]

/-!
Response cache (llm/cache.py).  A file entry is modelled as an
association-list binding of the key to the stored record together with
the file's mtime; `set` writes a fresh file (new mtime), `get` treats a
missing or over-age entry as absent.
-/

/-- A JSON value as far as the client code inspects one: the decoded
fields are either strings, numbers, or something else the code never
looks inside. -/
inductive JsonVal
  | str (s : String)
  | num (q : ℚ)
  | other
deriving Repr, DecidableEq

/-- The payload cached by `GeminiClient.classify_email`: the label,
confidence and explanation fields of the parsed response. -/
structure CacheRecord where
  label : JsonVal
  confidence : ℚ
  explanation : JsonVal
deriving Repr, DecidableEq

/-- State of `LLMCache`: the configured TTL and the stored files, each a
key with its record and mtime. -/
structure CacheState where
  ttl : ℚ
  entries : List (String × CacheRecord × ℚ)
deriving Repr, DecidableEq

/-- Look up the file for `key` (the record together with its mtime). -/
def cache_lookup (st : CacheState) (key : String) : Option (CacheRecord × ℚ) :=
  (st.entries.find? (fun e => e.1 == key)).map (·.2)

/-- Embedding of `LLMCache._is_expired`: a missing file is expired, and
an existing one is expired once its age exceeds the TTL. -/
def cache_is_expired (st : CacheState) (key : String) (now : ℚ) : Bool :=
  match cache_lookup st key with
  | none => true
  | some (_, mtime) => decide (now - mtime > st.ttl)

/-- Embedding of `LLMCache.get`: nothing if expired, else the record. -/
def cache_get (st : CacheState) (key : String) (now : ℚ) : Option CacheRecord :=
  if cache_is_expired st key now then none
  else (cache_lookup st key).map (·.1)

/-- Embedding of `LLMCache.set`: unconditional overwrite; the new file's
mtime is the write time. -/
def cache_set (st : CacheState) (key : String) (value : CacheRecord) (now : ℚ) : CacheState :=
  { st with entries := (key, value, now) :: st.entries.filter (fun e => e.1 != key) }

/-!
ClassificationClient (llm/client.py).  `hashlib.sha256(...).hexdigest()`
is an external primitive and is passed in as a function parameter
`sha256hex`; every claim about the fingerprint only needs that it is a
function of its input string.
-/

/-- Embedding of `GeminiClient._create_cache_key` (the 090244 revision):
the digest of `sender.lower() | subject.lower() | body.lower()[:1000]`. -/
def create_cache_key (sha256hex : String → String)
    (sender subject body : String) : String :=
  sha256hex (pyLower sender ++ "|" ++ pyLower subject ++ "|" ++ pyTake (pyLower body) 1000)

/-- The decoded JSON object as far as the client reads it: the three
fields the code accesses, each possibly absent. -/
structure JsonObj where
  label : Option JsonVal
  confidence : Option JsonVal
  explanation : Option JsonVal
deriving Repr, DecidableEq

/-- The validated result of `LLMClient._parse_response`. -/
structure ParsedResult where
  label : String
  confidence : ℚ
  explanation : Option JsonVal
deriving Repr, DecidableEq

/-- Greedy `re.search(r'\{.*\}', t, re.DOTALL)`: the slice from the first
opening brace to the last closing brace, when that span is nonempty. -/
def extractBraces (t : String) : Option String :=
  let cs := t.toList
  match cs.findIdx? (· == '\x7b') with
  | none => none
  | some i =>
    match cs.reverse.findIdx? (· == '\x7d') with
    | none => none
    | some rj =>
      let j := cs.length - 1 - rj
      if i < j then some (String.mk ((cs.take (j + 1)).drop i)) else none

/-- Embedding of `LLMClient._parse_response` (the 085944 revision):
strip, locate a JSON object if the text does not start with one, decode
(`jsonLoads` stands for `json.loads`, returning `none` on a decode
error), then validate: both fields present, the label drawn from the
closed set, and the confidence (converted by `pyFloat`, standing for
`float()`, `none` modelling a ValueError) within [0, 1]. -/
def parse_response (jsonLoads : String → Option JsonObj) (pyFloat : JsonVal → Option ℚ)
    (response_text : String) : Option ParsedResult :=
  let t := pyStrip response_text
  let t := if pyStartsWith t "\x7b" then t else
    match extractBraces t with
    | some m => m
    | none => t
  match jsonLoads t with
  | none => none
  | some obj =>
    match obj.label, obj.confidence with
    | some l, some c =>
      match l with
      | JsonVal.str s =>
        if s = "phishing" || s = "legit" then
          match pyFloat c with
          | some q => if 0 ≤ q ∧ q ≤ 1 then some ⟨s, q, obj.explanation⟩ else none
          | none => none
        else none
      | _ => none
    | _, _ => none

/-- Embedding of `GeminiClient._parse_gemini_response` (the 090244
revision): strip, peel markdown code fences, slice from the first brace
to the last closing brace, decode, and accept any object that merely has
the three fields present -- no label or confidence validation. -/
def parse_gemini_response (jsonLoads : String → Option JsonObj)
    (response_text : String) : Option JsonObj :=
  let t := pyStrip response_text
  let t := if pyStartsWith t "```json" then pyDrop t 7 else t
  let t := if pyStartsWith t "```" then pyDrop t 3 else t
  let t := if pyEndsWith t "```" then pyDropRight t 3 else t
  let cs := t.toList
  let start := match cs.findIdx? (· == '\x7b') with
    | some i => (i : ℤ)
    | none => -1
  let stop := (match cs.reverse.findIdx? (· == '\x7d') with
    | some rj => (cs.length : ℤ) - 1 - rj
    | none => -1) + 1
  if start ≠ -1 ∧ stop > start then
    let json_str := String.mk ((cs.take stop.toNat).drop start.toNat)
    match jsonLoads json_str with
    | none => none
    | some obj =>
      if obj.label.isSome && obj.confidence.isSome && obj.explanation.isSome then
        some obj
      else none
  else none

/-!
GeminiClient (llm/client.py, 090244 revision): running counters, the
rate limiter deque, the optional cache, and the classify operation.
Wall-clock time is frozen during one call except for the rate limiter's
sleeps, so measured latencies are 0; the external transport outcome is a
parameter.
-/

/-- The `LLMResult` dataclass.  The label and explanation are stored
exactly as decoded from JSON (the source applies no conversion), so they
are `JsonVal`s. -/
structure LLMResult where
  label : JsonVal
  confidence : ℚ
  explanation : JsonVal
  model : String
  tokens_used : Option ℤ
  latency_ms : Option ℤ
deriving Repr, DecidableEq

/-- The client's `stats` counters. -/
structure GeminiStats where
  total_requests : ℕ
  cache_hits : ℕ
  cache_misses : ℕ
  errors : ℕ
  total_tokens : ℕ
  total_latency_ms : ℤ
deriving Repr, DecidableEq

/-- Mutable state of a `GeminiClient`: configured model, rate limiter
(parameters and deque), optional cache, counters. -/
structure GeminiState where
  model : String
  max_requests : ℕ
  time_window : ℚ
  requests : List ℚ
  cache : Option CacheState
  stats : GeminiStats
deriving Repr, DecidableEq

/-- Outcome of one `generate_content` transport call: an exception, or a
response whose `.text` may be falsy (`ok none`). -/
inductive ApiResult
  | raise
  | ok (text : Option String)
deriving Repr, DecidableEq

/-- Embedding of `GeminiClient.classify_email`: fingerprint, cache
lookup, rate-limiter admission, external call, parse, validation-free
field extraction, caching of the parsed result.  Returns the result, the
new client state, and the number of external calls made (0 or 1).
`sha256hex`, `jsonLoads` and `pyFloat` stand for the external primitives
`hashlib.sha256(..).hexdigest()`, `json.loads` and `float()` (`none`
modelling a raised ValueError, which the outer `except` turns into an
error count and a `none` result). -/
def classify_email (sha256hex : String → String) (jsonLoads : String → Option JsonObj)
    (pyFloat : JsonVal → Option ℚ) (api : ApiResult)
    (st : GeminiState) (sender subject body : String) (now : ℚ) :
    Option LLMResult × GeminiState × ℕ :=
  let cache_key := create_cache_key sha256hex sender subject body
  match st.cache.bind (fun c => cache_get c cache_key now) with
  | some cached =>
    (some { label := cached.label, confidence := cached.confidence,
            explanation := cached.explanation, model := st.model,
            tokens_used := none, latency_ms := some 0 },
     { st with stats := { st.stats with cache_hits := st.stats.cache_hits + 1 } }, 0)
  | none =>
    let st1 := { st with stats := { st.stats with cache_misses := st.stats.cache_misses + 1 } }
    match wait_if_needed st1.max_requests st1.time_window st1.requests now with
    | none =>
      -- a raising rate limiter is caught by the outer `except`
      (none, { st1 with stats := { st1.stats with errors := st1.stats.errors + 1 } }, 0)
    | some (reqs2, now2) =>
      let st2 := { st1 with requests := reqs2 }
      match api with
      | ApiResult.raise =>
        (none, { st2 with stats := { st2.stats with errors := st2.stats.errors + 1 } }, 1)
      | ApiResult.ok none =>
        (none, { st2 with stats := { st2.stats with errors := st2.stats.errors + 1 } }, 1)
      | ApiResult.ok (some text) =>
        match parse_gemini_response jsonLoads text with
        | none =>
          (none, { st2 with stats := { st2.stats with errors := st2.stats.errors + 1 } }, 1)
        | some parsed =>
          match parsed.label, parsed.confidence, parsed.explanation with
          | some l, some c, some e =>
            (match pyFloat c with
            | none =>
              (none, { st2 with stats := { st2.stats with errors := st2.stats.errors + 1 } }, 1)
            | some q =>
              let result : LLMResult :=
                { label := l, confidence := q, explanation := e,
                  model := st2.model, tokens_used := none, latency_ms := some 0 }
              let newStats := { st2.stats with
                total_requests := st2.stats.total_requests + 1
                total_latency_ms := st2.stats.total_latency_ms + 0 }
              let st3 := { st2 with stats := newStats }
              let st4 := match st3.cache with
                | some c => { st3 with cache := some (cache_set c cache_key ⟨l, q, e⟩ now2) }
                | none => st3
              (some result, st4, 1))
          | _, _, _ =>
            (none, { st2 with stats := { st2.stats with errors := st2.stats.errors + 1 } }, 1)

/-- Round `q` to `ndigits` decimal places, modelling Python's `round`
(which rounds half to even on binary floats; the two agree except at
exact half-way ties, which none of the claims exercise). -/
def pyRound (q : ℚ) (ndigits : ℕ) : ℚ :=
  (round (q * 10 ^ ndigits) : ℚ) / 10 ^ ndigits

/-- The dictionary returned by `GeminiClient.get_stats` (the fields the
claims are about). -/
structure StatsReport where
  model : String
  total_requests : ℕ
  errors : ℕ
  avg_latency_ms : ℚ
  cache_hit_rate : ℚ
  cache_enabled : Bool
deriving Repr, DecidableEq

/-- Embedding of `GeminiClient.get_stats`: the averages are guarded so
that a zero denominator is never divided by. -/
def get_stats (st : GeminiState) : StatsReport :=
  let avg_latency : ℚ :=
    if 0 < st.stats.total_requests then
      (st.stats.total_latency_ms : ℚ) / (st.stats.total_requests : ℚ)
    else 0
  let total_cache_requests := st.stats.cache_hits + st.stats.cache_misses
  let cache_hit_rate : ℚ :=
    if 0 < total_cache_requests then
      (st.stats.cache_hits : ℚ) / (total_cache_requests : ℚ)
    else 0
  { model := st.model, total_requests := st.stats.total_requests,
    errors := st.stats.errors, avg_latency_ms := pyRound avg_latency 2,
    cache_hit_rate := pyRound cache_hit_rate 3, cache_enabled := st.cache.isSome }

/-!
The earlier LLMClient.classify_email (llm/client.py, 085944 revision)
contains the bounded retry loop (`for attempt in range(max_retries)`).
The loop's behaviour is a function of each attempt's outcome; the
outcome of attempt `a` (transport call plus response extraction plus
`_parse_response`) is supplied by an oracle.
-/

/-- Outcome of one attempt of the retry loop: the parse failed, the
parse succeeded, or one of the caught exception classes was raised. -/
inductive AttemptOutcome
  | parseFail
  | success (r : ParsedResult)
  | apiTimeout
  | rateLimited
  | connError
  | otherErr
deriving Repr, DecidableEq

/-- Worker for `llm_retry_loop`: `remaining` counts the attempts still
available including the current one (so `remaining = max_retries - a`,
and the source's `attempt < max_retries - 1` test is `0 < remaining - 1`,
i.e. `1 ≤ remaining - 1`, i.e. `0 < remaining` after the current attempt
is spent).  Returns the result, the number of transport calls made, and
the list of sleep durations in order. -/
def retry_go (outcome : ℕ → AttemptOutcome) :
    ℕ → ℕ → Option ParsedResult × ℕ × List ℚ
  | 0, _ => (none, 0, [])
  | remaining + 1, a =>
    match outcome a with
    | AttemptOutcome.success r => (some r, 1, [])
    | AttemptOutcome.parseFail =>
      if 0 < remaining then
        let r := retry_go outcome remaining (a + 1)
        (r.1, r.2.1 + 1, ((2 : ℚ) ^ a) :: r.2.2)
      else (none, 1, [])
    | AttemptOutcome.apiTimeout =>
      if 0 < remaining then
        let r := retry_go outcome remaining (a + 1)
        (r.1, r.2.1 + 1, (5 : ℚ) :: r.2.2)
      else (none, 1, [])
    | AttemptOutcome.rateLimited =>
      -- the source sleeps 60 before checking whether retries remain
      if 0 < remaining then
        let r := retry_go outcome remaining (a + 1)
        (r.1, r.2.1 + 1, (60 : ℚ) :: r.2.2)
      else (none, 1, [60])
    | AttemptOutcome.connError =>
      if 0 < remaining then
        let r := retry_go outcome remaining (a + 1)
        (r.1, r.2.1 + 1, (5 : ℚ) :: r.2.2)
      else (none, 1, [])
    | AttemptOutcome.otherErr =>
      if 0 < remaining then
        let r := retry_go outcome remaining (a + 1)
        (r.1, r.2.1 + 1, (2 : ℚ) :: r.2.2)
      else (none, 1, [])

/-- Embedding of the retry loop of `LLMClient.classify_email` (085944
revision), lines 186-275: up to `max_retries` attempts, exponential
backoff `2 ** attempt` after a parse failure, fixed 5s / 60s / 2s sleeps
for the caught exception classes, `None` when the budget is exhausted. -/
def llm_retry_loop (outcome : ℕ → AttemptOutcome) (max_retries : ℕ) :
    Option ParsedResult × ℕ × List ℚ :=
  retry_go outcome max_retries 0

/-!
Risk aggregation (api/app.py `score_email`, 090619 revision, lines
170-179).  `x or 0.0` on an optional float yields 0.0 for both None and
0.0.  The literal thresholds 0.85 and 0.6 are modelled as exact
rationals.
-/

/-- Python `x or 0.0` on an `Optional[float]`. -/
def pyOrZero (x : Option ℚ) : ℚ :=
  match x with
  | none => 0
  | some q => if q = 0 then 0 else q

/-- Embedding of the risk-level aggregation of `score_email`: either
score at or above 0.85 gives "high", else either at or above 0.6 gives
"medium", else "low"; missing scores default to 0. -/
def risk_level (ml_score llm_confidence : Option ℚ) : String :=
  let m := pyOrZero ml_score
  let l := pyOrZero llm_confidence
  if 85 / 100 ≤ m ∨ 85 / 100 ≤ l then "high"
  else if 6 / 10 ≤ m ∨ 6 / 10 ≤ l then "medium"
  else "low"

/-!
Configuration (agent/config.py).  `__post_init__` reads the environment
(modelled as a partial map), applies defaults, auto-switches a
credential-less "llm" mode to "fallback", and validates the mode and
model names; a `ValueError` is an `Except.error`.
-/

/-- Minimal model of Python `int(s)`: an optional sign followed by
decimal digits (Python additionally tolerates surrounding whitespace and
underscores, which no claim exercises). -/
def pyInt (s : String) : Option ℤ :=
  let cs := s.toList
  let signDigits : ℤ × List Char :=
    match cs with
    | '-' :: t => (-1, t)
    | '+' :: t => (1, t)
    | _ => (1, cs)
  let ds := signDigits.2
  if ds.isEmpty || !ds.all Char.isDigit then none
  else some (signDigits.1 *
    (ds.foldl (fun acc c => acc * 10 + ((c.toNat : ℤ) - ('0'.toNat : ℤ))) 0))

/-- The `Config` dataclass after `__post_init__`. -/
structure Config where
  mode : String
  ml_artifacts_path : String
  log_file_path : String
  samples_path : String
  gemini_api_key : Option String
  gemini_model : String
  imap_host : Option String
  imap_user : Option String
  imap_pass : Option String
  log_level : String
  gemini_rate_limit : ℤ
  llm_cache_enabled : Bool
  agent_poll_interval : ℤ
  url_blacklist : List String
deriving Repr, DecidableEq

/-- The `int(os.getenv(name, default))` idiom: the integer default when
the variable is unset, otherwise `int()` applied to its value. -/
def envInt (v : Option String) (default : ℤ) : Option ℤ :=
  match v with
  | none => some default
  | some s => pyInt s

/-- Embedding of `Config.__post_init__` over an environment map:
defaults, the automatic llm-to-fallback switch when no API key is
present (a printed warning, not an error), and the two `ValueError`
validations, in source order. -/
def config_post_init (env : String → Option String) : Except String Config :=
  let mode := (env "MODE").getD "llm"
  let ml_artifacts_path := (env "ML_ARTIFACTS_PATH").getD "/app/ml_artifacts"
  let log_file_path := (env "LOG_FILE_PATH").getD "/var/log/email_events.log"
  let samples_path := (env "SAMPLES_PATH").getD "/app/samples"
  let gemini_api_key := env "GEMINI_API_KEY"
  let gemini_model := (env "GEMINI_MODEL").getD "gemini-1.5-flash"
  let imap_host := env "IMAP_HOST"
  let imap_user := env "IMAP_USER"
  let imap_pass := env "IMAP_PASS"
  let log_level := (env "LOG_LEVEL").getD "INFO"
  match envInt (env "GEMINI_RATE_LIMIT") 60 with
  | none => Except.error "invalid literal for int(): GEMINI_RATE_LIMIT"
  | some gemini_rate_limit =>
    let llm_cache_enabled := pyLower ((env "LLM_CACHE_ENABLED").getD "true") == "true"
    match envInt (env "AGENT_POLL_INTERVAL") 60 with
    | none => Except.error "invalid literal for int(): AGENT_POLL_INTERVAL"
    | some agent_poll_interval =>
      let mode := if mode = "llm" ∧ gemini_api_key = none then "fallback" else mode
      if mode ≠ "llm" ∧ mode ≠ "fallback" then
        Except.error ("Invalid mode: " ++ mode)
      else if gemini_model ≠ "gemini-1.5-flash" ∧ gemini_model ≠ "gemini-1.5-pro" then
        Except.error ("Invalid Gemini model: " ++ gemini_model)
      else
        Except.ok
          { mode := mode, ml_artifacts_path := ml_artifacts_path,
            log_file_path := log_file_path, samples_path := samples_path,
            gemini_api_key := gemini_api_key, gemini_model := gemini_model,
            imap_host := imap_host, imap_user := imap_user, imap_pass := imap_pass,
            log_level := log_level, gemini_rate_limit := gemini_rate_limit,
            llm_cache_enabled := llm_cache_enabled,
            agent_poll_interval := agent_poll_interval,
            url_blacklist := ["secure-banking.vn-verify.com", "vn-verify.com",
                              "secure-banking"] }

/-!
ScoringOrchestrator (agent/email_agent.py `EmailAgent.process_email`).
The LLM client is a parameter (`none` when not initialised); its
classify call is a function returning either a raised exception's
message or an optional result.  The function also returns the argument
triple passed to the classify call, if one was made, so that theorems
can speak about what leaves the trust boundary.
-/

/-- One parsed e-mail record (`_parse_email`'s dictionary). -/
structure EmailData where
  from_ : String
  to_ : List String
  subject : String
  body : String
  headers : Option (List (String × String))

/-- The emitted `EmailEvent` dataclass. -/
structure EmailEvent where
  timestamp : String
  sender : String
  sender_hash : String
  recipients : List String
  subject : String
  body_excerpt : String
  urls : List String
  suspicious_keywords : ℕ
  url_in_blacklist : Bool
  ml_prediction : Option String
  ml_score : Option ℚ
  ml_model : String
  llm_label : Option JsonVal
  llm_confidence : Option ℚ
  llm_explanation : Option JsonVal
  llm_model : Option String
  llm_latency_ms : Option ℤ
  llm_tokens_used : Option ℤ
  llm_error : Option String
  sender_ip : Option String
  headers : Option (List (String × String))
  features : Option Features

/-- Embedding of `EmailAgent.process_email`: redact sender and body,
hash the sender, extract features/urls/keywords/blacklist from the raw
text, truncate the redacted body to a 2000-character excerpt, call the
classify function when a client exists and the mode is "llm", and
assemble the event.  Returns the event together with the `(sender,
subject, body)` argument triple of the outbound classify call, when one
was made. -/
def process_email (sha256hex : String → String)
    (llm_client : Option (String → String → String → Except String (Option LLMResult)))
    (mode : String) (timestamp : String) (email_data : EmailData) :
    EmailEvent × Option (String × String × String) :=
  let sender := email_data.from_
  let subject := email_data.subject
  let body := email_data.body
  let redacted_sender := redact_pii sender
  let redacted_body := redact_pii body
  let sender_hash := pyTake (sha256hex sender) 16
  let features := extract_features subject body
  let urls := extract_urls body
  let suspicious_keywords := count_suspicious_keywords (subject ++ " " ++ body)
  let url_in_blacklist := check_blacklist urls
  let body_excerpt := if 2000 < redacted_body.length then pyTake redacted_body 2000
    else redacted_body
  let llmOutcome : Option (Except String (Option LLMResult)) :=
    match llm_client with
    | some f => if mode = "llm" then some (f redacted_sender subject body_excerpt) else none
    | none => none
  let callArgs : Option (String × String × String) :=
    match llm_client with
    | some _ => if mode = "llm" then some (redacted_sender, subject, body_excerpt) else none
    | none => none
  let llmFields :
      Option JsonVal × Option ℚ × Option JsonVal × Option String ×
        Option ℤ × Option ℤ × Option String :=
    match llmOutcome with
    | none => (none, none, none, none, none, none, none)
    | some (Except.ok none) => (none, none, none, none, some 0, none, none)
    | some (Except.ok (some r)) =>
      (some r.label, some r.confidence, some r.explanation, some r.model,
       some 0, r.tokens_used, none)
    | some (Except.error msg) =>
      (some (JsonVal.str "unavailable"), some 0,
       some (JsonVal.str ("Error: " ++ pyTake msg 100)), none, none, none, some msg)
  ({ timestamp := timestamp, sender := redacted_sender, sender_hash := sender_hash,
     recipients := email_data.to_.map redact_pii, subject := subject,
     body_excerpt := body_excerpt, urls := urls,
     suspicious_keywords := suspicious_keywords, url_in_blacklist := url_in_blacklist,
     ml_prediction := none, ml_score := none, ml_model := "tfidf_linear_svc",
     llm_label := llmFields.1, llm_confidence := llmFields.2.1,
     llm_explanation := llmFields.2.2.1, llm_model := llmFields.2.2.2.1,
     llm_latency_ms := llmFields.2.2.2.2.1, llm_tokens_used := llmFields.2.2.2.2.2.1,
     llm_error := llmFields.2.2.2.2.2.2, sender_ip := none,
     headers := email_data.headers, features := some features }, callArgs)

/-!
Theorems.  Each claim of the specification audit gets one theorem below,
preceded by helper lemmas where needed.
-/

/-- The head surviving `dropWhile` fails the predicate. -/
theorem dropWhile_head_false (p : ℚ → Bool) :
    ∀ (l : List ℚ) (h : ℚ) (t : List ℚ), l.dropWhile p = h :: t → p h = false := by
  intro l
  induction l with
  | nil => intro h t hyp; simp [List.dropWhile] at hyp
  | cons a l ih =>
    intro h t hyp
    rw [List.dropWhile_cons] at hyp
    by_cases ha : p a = true
    · exact ih h t (by simpa [ha] using hyp)
    · simp [ha] at hyp
      rw [← hyp.1]
      simpa using ha

/-- With `max_requests ≥ 1`, fuel `reqs.length + 1` always suffices for
`waitAux`, and the returned deque is bounded by `max_requests` while the
recorded time never precedes the entry time. -/
theorem waitAux_succeeds (max_requests : ℕ) (time_window : ℚ) (hmax : 1 ≤ max_requests) :
    ∀ (fuel : ℕ) (reqs : List ℚ) (now : ℚ), reqs.length < fuel →
      ∃ reqs' now', waitAux max_requests time_window fuel reqs now = some (reqs', now') ∧
        reqs'.length ≤ max_requests ∧ now ≤ now' ∧
        (max_requests ≤ (reqs.dropWhile (fun t => decide (t ≤ now - time_window))).length →
          now < now') := by
  intro fuel
  induction fuel with
  | zero => intro reqs now h; omega
  | succ n ih =>
    intro reqs now h
    by_cases hc : max_requests ≤ (reqs.dropWhile (fun t => decide (t ≤ now - time_window))).length
    · cases hpr : reqs.dropWhile (fun t => decide (t ≤ now - time_window)) with
      | nil => rw [hpr] at hc; simp at hc; omega
      | cons hd tl =>
        have hsub : (reqs.dropWhile (fun t => decide (t ≤ now - time_window))).length ≤ reqs.length :=
          (List.dropWhile_sublist _).length_le
        have hlen : tl.length < n := by
          rw [hpr] at hsub; simp at hsub; omega
        obtain ⟨r', n', heq, hb, hle, _⟩ := ih tl (hd + time_window) hlen
        have hhd : (fun t => decide (t ≤ now - time_window)) hd = false :=
          dropWhile_head_false _ reqs hd tl hpr
        simp at hhd
        refine ⟨r', n', ?_, hb, ?_, fun _ => ?_⟩
        · simp only [waitAux]
          rw [hpr, if_pos (by rw [hpr] at hc; exact hc)]
          exact heq
        · linarith
        · linarith
    · refine ⟨reqs.dropWhile (fun t => decide (t ≤ now - time_window)) ++ [now], now, ?_, ?_,
        le_refl _, fun hcc => absurd hcc hc⟩
      · simp only [waitAux]
        rw [if_neg hc]
      · simp only [List.length_append, List.length_singleton]
        omega

/-- C2: for every admission call to the rate limiter (with a positive
request bound, as configured), the call terminates having recorded the
request at some time `now' ≥ now`, the resulting deque holds at most
`max_requests` timestamps, and hence at every instant the number of
recorded timestamps inside the trailing window never exceeds
`max_requests`; an admission that would exceed the bound is delayed
(`now < now'`) rather than recorded at once. -/
theorem rate_limiter_window_bound (max_requests : ℕ) (time_window : ℚ)
    (reqs : List ℚ) (now : ℚ) (hmax : 1 ≤ max_requests) :
    ∃ reqs' now', wait_if_needed max_requests time_window reqs now = some (reqs', now') ∧
      reqs'.length ≤ max_requests ∧
      (∀ t, countWithin time_window t reqs' ≤ max_requests) ∧
      now ≤ now' ∧
      (max_requests ≤ (reqs.dropWhile (fun t => decide (t ≤ now - time_window))).length →
        now < now') := by
  obtain ⟨r', n', heq, hb, hle, hwait⟩ :=
    waitAux_succeeds max_requests time_window hmax (reqs.length + 1) reqs now (by omega)
  refine ⟨r', n', heq, hb, fun t => ?_, hle, hwait⟩
  exact le_trans (List.length_filter_le _ _) hb

/-- C2 witness: a concrete admission against a full one-slot window. -/
theorem rate_limiter_window_bound_witness :
    ∃ reqs' now', wait_if_needed 1 10 [5] 6 = some (reqs', now') ∧
      reqs'.length ≤ 1 ∧ (∀ t, countWithin 10 t reqs' ≤ 1) ∧ (6 : ℚ) ≤ now' ∧
      (1 ≤ (([5] : List ℚ).dropWhile (fun t => decide (t ≤ 6 - 10))).length → (6 : ℚ) < now') :=
  rate_limiter_window_bound 1 10 [5] 6 (by norm_num)

/-- C3: the fingerprint is a deterministic function of the lower-cased
sender, the lower-cased subject, and the lower-cased body prefix capped
at 1000 characters: inputs equal after this normalization yield
identical cache keys. -/
theorem cache_key_deterministic (sha256hex : String → String)
    (sender1 subject1 body1 sender2 subject2 body2 : String)
    (hs : pyLower sender1 = pyLower sender2)
    (hj : pyLower subject1 = pyLower subject2)
    (hb : pyTake (pyLower body1) 1000 = pyTake (pyLower body2) 1000) :
    create_cache_key sha256hex sender1 subject1 body1 =
      create_cache_key sha256hex sender2 subject2 body2 := by
  unfold create_cache_key
  rw [hs, hj, hb]

/-- C3 witness: case-variant triples produce the same key. -/
theorem cache_key_deterministic_witness :
    create_cache_key (fun s => s) "Alice@X.Com" "Hello" "Body Text" =
      create_cache_key (fun s => s) "alice@x.com" "hELLO" "bODY tEXT" :=
  cache_key_deterministic (fun s => s) _ _ _ _ _ _ (by decide) (by decide) (by decide)

/-- C4: immediately after `set(k, v)` at time `t`, `get(k)` returns `v`
(the new entry's age 0 does not exceed the nonnegative TTL), and once the
elapsed time since the write exceeds the TTL, `get(k)` returns nothing. -/
theorem cache_roundtrip (st : CacheState) (k : String) (v : CacheRecord) (t now : ℚ)
    (httl : 0 ≤ st.ttl) (hexp : st.ttl < now - t) :
    cache_get (cache_set st k v t) k t = some v ∧
      cache_get (cache_set st k v t) k now = none := by
  have hfind : cache_lookup (cache_set st k v t) k = some (v, t) := by
    unfold cache_lookup cache_set
    simp [List.find?]
  constructor
  · unfold cache_get cache_is_expired
    rw [hfind]
    have hne : ¬ (t - t > st.ttl) := by
      simp only [sub_self]
      exact not_lt.mpr httl
    simp [hne]
    show (0 : ℚ) ≤ st.ttl
    exact httl
  · unfold cache_get cache_is_expired
    rw [hfind]
    have hyes : now - t > st.ttl := hexp
    simp [hyes]
    show st.ttl + t < now
    linarith

/-- C4 witness: a concrete entry is readable at its write time and gone
after the TTL has elapsed. -/
theorem cache_roundtrip_witness :
    cache_get (cache_set ⟨3600, []⟩ "k" ⟨JsonVal.str "phishing", 9 / 10, JsonVal.other⟩ 100) "k" 100 =
        some ⟨JsonVal.str "phishing", 9 / 10, JsonVal.other⟩ ∧
      cache_get (cache_set ⟨3600, []⟩ "k" ⟨JsonVal.str "phishing", 9 / 10, JsonVal.other⟩ 100) "k" 5000 =
        none :=
  cache_roundtrip ⟨3600, []⟩ "k" ⟨JsonVal.str "phishing", 9 / 10, JsonVal.other⟩ 100 5000
    (by norm_num) (by norm_num)

/-- C5: the aggregated risk level thresholds the best available score
(unavailable scores defaulting to 0): at or above 0.85 gives "high",
else at or above 0.6 gives "medium", else "low"; in particular
confidence 0.90 is "high", 0.70 is "medium", 0.10 is "low", and with no
scores at all the verdict is still "low". -/
theorem risk_level_thresholds :
    (∀ ml_score llm_confidence : Option ℚ,
      risk_level ml_score llm_confidence =
        if 85 / 100 ≤ max (pyOrZero ml_score) (pyOrZero llm_confidence) then "high"
        else if 6 / 10 ≤ max (pyOrZero ml_score) (pyOrZero llm_confidence) then "medium"
        else "low") ∧
    risk_level none (some (90 / 100)) = "high" ∧
    risk_level none (some (70 / 100)) = "medium" ∧
    risk_level none (some (10 / 100)) = "low" ∧
    risk_level none none = "low" := by
  refine ⟨fun ml_score llm_confidence => ?_, ?_, ?_, ?_, ?_⟩
  · simp only [risk_level, le_max_iff]
  · norm_num [risk_level, pyOrZero]
  · norm_num [risk_level, pyOrZero]
  · norm_num [risk_level, pyOrZero]
  · norm_num [risk_level, pyOrZero]

/-- Rounding to `n` decimal places sends 0 to 0. -/
theorem pyRound_zero (n : ℕ) : pyRound 0 n = 0 := by
  simp [pyRound]

/-- Rounding to `n` decimal places maps `[0, 1]` into `[0, 1]`. -/
theorem pyRound_mem_unit (q : ℚ) (n : ℕ) (h0 : 0 ≤ q) (h1 : q ≤ 1) :
    0 ≤ pyRound q n ∧ pyRound q n ≤ 1 := by
  have hpow : (0 : ℚ) < 10 ^ n := by positivity
  have hlow : (0 : ℤ) ≤ round (q * 10 ^ n) := by
    rw [round_eq]
    refine Int.le_floor.mpr ?_
    push_cast
    nlinarith
  have hupq : (round (q * 10 ^ n) : ℚ) ≤ q * 10 ^ n + 1 / 2 := round_le_add_half _
  have hmul : q * 10 ^ n ≤ 10 ^ n := by nlinarith
  have hup : round (q * 10 ^ n) ≤ (10 : ℤ) ^ n := by
    have hq : (round (q * 10 ^ n) : ℚ) < ((10 : ℤ) ^ n : ℤ) + 1 := by
      push_cast
      nlinarith
    exact_mod_cast Int.lt_add_one_iff.mp (by exact_mod_cast hq)
  constructor
  · exact div_nonneg (by exact_mod_cast hlow) (le_of_lt hpow)
  · rw [pyRound, div_le_one hpow]
    exact_mod_cast hup

/-- C10: `get_stats` never divides by zero: with zero total requests the
reported average latency is 0, with no cache lookups the reported hit
rate is 0, and the reported hit rate always lies within [0, 1]. -/
theorem get_stats_no_div_by_zero (st : GeminiState) :
    0 ≤ (get_stats st).cache_hit_rate ∧
      (get_stats st).cache_hit_rate ≤ 1 ∧
      (st.stats.total_requests = 0 → (get_stats st).avg_latency_ms = 0) ∧
      (st.stats.cache_hits + st.stats.cache_misses = 0 →
        (get_stats st).cache_hit_rate = 0) := by
  have hrate : (get_stats st).cache_hit_rate =
      pyRound (if 0 < st.stats.cache_hits + st.stats.cache_misses then
        (st.stats.cache_hits : ℚ) / ((st.stats.cache_hits + st.stats.cache_misses : ℕ) : ℚ)
      else 0) 3 := rfl
  have hbase : 0 ≤ (if 0 < st.stats.cache_hits + st.stats.cache_misses then
        (st.stats.cache_hits : ℚ) / ((st.stats.cache_hits + st.stats.cache_misses : ℕ) : ℚ)
      else 0) ∧
      (if 0 < st.stats.cache_hits + st.stats.cache_misses then
        (st.stats.cache_hits : ℚ) / ((st.stats.cache_hits + st.stats.cache_misses : ℕ) : ℚ)
      else 0) ≤ 1 := by
    by_cases hc : 0 < st.stats.cache_hits + st.stats.cache_misses
    · rw [if_pos hc]
      have hpos : (0 : ℚ) < ((st.stats.cache_hits + st.stats.cache_misses : ℕ) : ℚ) := by
        exact_mod_cast hc
      constructor
      · exact div_nonneg (by positivity) (le_of_lt hpos)
      · rw [div_le_one hpos]
        exact_mod_cast Nat.le_add_right _ _
    · rw [if_neg hc]
      norm_num
  obtain ⟨hb0, hb1⟩ := hbase
  obtain ⟨hr0, hr1⟩ := pyRound_mem_unit _ 3 hb0 hb1
  refine ⟨by rw [hrate]; exact hr0, by rw [hrate]; exact hr1, ?_, ?_⟩
  · intro h
    have : (get_stats st).avg_latency_ms = pyRound (if 0 < st.stats.total_requests then
        (st.stats.total_latency_ms : ℚ) / (st.stats.total_requests : ℚ) else 0) 2 := rfl
    rw [this, h]
    simp [pyRound_zero]
  · intro h
    rw [hrate, h]
    simp [pyRound_zero]

/-- C10 witness: the freshly initialised counters report zero average
latency and a zero in-range hit rate. -/
theorem get_stats_no_div_by_zero_witness :
    0 ≤ (get_stats ⟨"m", 60, 60, [], none, ⟨0, 0, 0, 0, 0, 0⟩⟩).cache_hit_rate ∧
      (get_stats ⟨"m", 60, 60, [], none, ⟨0, 0, 0, 0, 0, 0⟩⟩).cache_hit_rate ≤ 1 ∧
      (get_stats ⟨"m", 60, 60, [], none, ⟨0, 0, 0, 0, 0, 0⟩⟩).avg_latency_ms = 0 ∧
      (get_stats ⟨"m", 60, 60, [], none, ⟨0, 0, 0, 0, 0, 0⟩⟩).cache_hit_rate = 0 := by
  have h := get_stats_no_div_by_zero ⟨"m", 60, 60, [], none, ⟨0, 0, 0, 0, 0, 0⟩⟩
  exact ⟨h.1, h.2.1, h.2.2.1 rfl, h.2.2.2 rfl⟩

/-- C9: at configuration initialisation in 'llm' mode with no
GEMINI_API_KEY in the environment, `__post_init__` switches the mode to
'fallback' without raising (given the remaining environment values are
well-formed); moreover every successful initialisation without the key
ends in 'fallback' mode, never in 'llm' mode -- and since the mode field
is written nowhere else, there is no transition back at runtime. -/
theorem config_llm_without_key_degrades :
    (∀ (env : String → Option String) (rl pi : ℤ),
      env "GEMINI_API_KEY" = none →
      (env "MODE").getD "llm" = "llm" →
      envInt (env "GEMINI_RATE_LIMIT") 60 = some rl →
      envInt (env "AGENT_POLL_INTERVAL") 60 = some pi →
      ((env "GEMINI_MODEL").getD "gemini-1.5-flash" = "gemini-1.5-flash" ∨
        (env "GEMINI_MODEL").getD "gemini-1.5-flash" = "gemini-1.5-pro") →
      ∃ cfg, config_post_init env = Except.ok cfg ∧ cfg.mode = "fallback") ∧
    (∀ (env : String → Option String) (cfg : Config),
      env "GEMINI_API_KEY" = none →
      config_post_init env = Except.ok cfg →
      cfg.mode = "fallback") := by
  constructor
  · intro env rl pi hkey hmode hrl hpi hmodel
    simp only [config_post_init]
    rw [hrl, hpi]
    have hm' : (if (env "MODE").getD "llm" = "llm" ∧ env "GEMINI_API_KEY" = none
        then "fallback" else (env "MODE").getD "llm") = "fallback" := if_pos ⟨hmode, hkey⟩
    rw [hm']
    rcases hmodel with hm | hm <;> rw [hm] <;> simp
  · intro env cfg hkey h
    simp only [config_post_init] at h
    split at h
    · cases h
    · split at h
      · cases h
      · by_cases hguard : ((if (env "MODE").getD "llm" = "llm" ∧ env "GEMINI_API_KEY" = none
              then "fallback" else (env "MODE").getD "llm") ≠ "llm" ∧
            (if (env "MODE").getD "llm" = "llm" ∧ env "GEMINI_API_KEY" = none
              then "fallback" else (env "MODE").getD "llm") ≠ "fallback")
        · rw [if_pos hguard] at h; cases h
        · rw [if_neg hguard] at h
          by_cases hmodel : ((env "GEMINI_MODEL").getD "gemini-1.5-flash" ≠ "gemini-1.5-flash" ∧
              (env "GEMINI_MODEL").getD "gemini-1.5-flash" ≠ "gemini-1.5-pro")
          · rw [if_pos hmodel] at h; cases h
          · rw [if_neg hmodel] at h
            cases h
            show (if (env "MODE").getD "llm" = "llm" ∧ env "GEMINI_API_KEY" = none
              then "fallback" else (env "MODE").getD "llm") = "fallback"
            by_cases hm : (env "MODE").getD "llm" = "llm"
            · exact if_pos ⟨hm, hkey⟩
            · rw [if_neg (fun hc => hm hc.1)]
              rw [if_neg (fun hc => hm hc.1)] at hguard
              push_neg at hguard
              exact hguard hm

/-- C9 witness: the empty environment (no MODE, no key) initialises
successfully into fallback mode. -/
theorem config_llm_without_key_degrades_witness :
    ∃ cfg, config_post_init (fun _ => none) = Except.ok cfg ∧ cfg.mode = "fallback" :=
  config_llm_without_key_degrades.1 (fun _ => none) 60 60 rfl rfl rfl rfl (Or.inl rfl)

/-- C8 (amended part): `LLMClient._parse_response` validates what it
accepts -- every structured result it returns has a label drawn from the
closed set and a confidence within [0, 1]; everything else is a parse
failure. -/
theorem parse_response_validates (jsonLoads : String → Option JsonObj)
    (pyFloat : JsonVal → Option ℚ) (response_text : String) (r : ParsedResult)
    (h : parse_response jsonLoads pyFloat response_text = some r) :
    (r.label = "phishing" ∨ r.label = "legit") ∧ 0 ≤ r.confidence ∧ r.confidence ≤ 1 := by
  simp only [parse_response] at h
  split at h
  · cases h
  · split at h
    · split at h
      · split at h
        · split at h
          · split at h
            · cases h
              simp_all
            · cases h
          · cases h
        · cases h
      · cases h
    · cases h

/-- C8 witness: a well-formed response is accepted and satisfies the
validated bounds. -/
theorem parse_response_validates_witness :
    ((("phishing" : String) = "phishing" ∨ ("phishing" : String) = "legit") ∧
      (0 : ℚ) ≤ 1 / 2 ∧ (1 / 2 : ℚ) ≤ 1) := by
  have h := parse_response_validates
    (fun _ => some ⟨some (JsonVal.str "phishing"), some (JsonVal.num (1 / 2)), none⟩)
    (fun v => match v with | JsonVal.num q => some q | _ => none)
    "" ⟨"phishing", 1 / 2, none⟩ ?_
  · exact h
  · norm_num [parse_response, pyStrip, pyStartsWith, extractBraces]

/-- C8 counterexample: the live parser `GeminiClient._parse_gemini_response`
accepts a response whose label is outside the closed set and whose
confidence lies outside [0, 1] -- it only checks that the three fields
are present. -/
theorem parse_gemini_accepts_invalid :
    parse_gemini_response
        (fun s => if s = "\x7b\"label\": \"banana\", \"confidence\": 5.0, \"explanation\": \"x\"\x7d"
          then some ⟨some (JsonVal.str "banana"), some (JsonVal.num 5), some (JsonVal.str "x")⟩
          else none)
        "\x7b\"label\": \"banana\", \"confidence\": 5.0, \"explanation\": \"x\"\x7d" =
      some ⟨some (JsonVal.str "banana"), some (JsonVal.num 5), some (JsonVal.str "x")⟩ ∧
    ("banana" : String) ≠ "phishing" ∧ ("banana" : String) ≠ "legit" ∧ ¬ ((5 : ℚ) ≤ 1) := by
  refine ⟨?_, by decide, by decide, by norm_num⟩
  decide

/-- C6: when the fingerprint has an unexpired cache entry, classify
returns the cached result immediately with only the hit counter
incremented: the rate limiter's deque, the cache contents, and every
other counter are unchanged, and no external call is made (third
component 0). -/
theorem classify_email_cache_hit (sha256hex : String → String)
    (jsonLoads : String → Option JsonObj) (pyFloat : JsonVal → Option ℚ)
    (api : ApiResult) (st : GeminiState) (sender subject body : String) (now : ℚ)
    (c : CacheState) (entry : CacheRecord)
    (hc : st.cache = some c)
    (hget : cache_get c (create_cache_key sha256hex sender subject body) now = some entry) :
    classify_email sha256hex jsonLoads pyFloat api st sender subject body now =
      (some { label := entry.label, confidence := entry.confidence,
              explanation := entry.explanation, model := st.model,
              tokens_used := none, latency_ms := some 0 },
       { st with stats := { st.stats with cache_hits := st.stats.cache_hits + 1 } }, 0) := by
  simp only [classify_email, hc, Option.some_bind, hget]

/-- C6 witness: a concrete hit leaves the one-slot deque and all the
other counters untouched. -/
theorem classify_email_cache_hit_witness :
    classify_email (fun _ => "K") (fun _ => none) (fun _ => none) ApiResult.raise
        ⟨"m", 1, 60, [7], some ⟨3600, [("K", ⟨JsonVal.str "legit", 1 / 2, JsonVal.other⟩, 100)]⟩,
          ⟨0, 0, 0, 0, 0, 0⟩⟩ "a" "b" "c" 100 =
      (some { label := JsonVal.str "legit", confidence := 1 / 2, explanation := JsonVal.other,
              model := "m", tokens_used := none, latency_ms := some 0 },
       ⟨"m", 1, 60, [7], some ⟨3600, [("K", ⟨JsonVal.str "legit", 1 / 2, JsonVal.other⟩, 100)]⟩,
         ⟨0, 1, 0, 0, 0, 0⟩⟩, 0) := by
  have h := classify_email_cache_hit (fun _ => "K") (fun _ => none) (fun _ => none)
    ApiResult.raise
    ⟨"m", 1, 60, [7], some ⟨3600, [("K", ⟨JsonVal.str "legit", 1 / 2, JsonVal.other⟩, 100)]⟩,
      ⟨0, 0, 0, 0, 0, 0⟩⟩ "a" "b" "c" 100
    ⟨3600, [("K", ⟨JsonVal.str "legit", 1 / 2, JsonVal.other⟩, 100)]⟩
    ⟨JsonVal.str "legit", 1 / 2, JsonVal.other⟩ rfl
    (by
      simp only [cache_get, cache_is_expired, cache_lookup, create_cache_key, pyLower,
        pyTake, List.find?, beq_self_eq_true, Option.map_some']
      norm_num)
  exact h

/-- On persistently failing parses, the retry loop of
`LLMClient.classify_email` makes exactly `remaining` transport calls,
sleeps `2 ** attempt` after every attempt but the last, and returns no
result. -/
theorem retry_go_parse_fail (outcome : ℕ → AttemptOutcome)
    (h : ∀ i, outcome i = AttemptOutcome.parseFail) :
    ∀ remaining a, retry_go outcome remaining a =
      (none, remaining, (List.range' a (remaining - 1)).map (fun i => (2 : ℚ) ^ i)) := by
  intro remaining
  induction remaining with
  | zero => intro a; rfl
  | succ n ih =>
    intro a
    simp only [retry_go, h a]
    by_cases hn : 0 < n
    · rw [if_pos hn, ih (a + 1)]
      obtain ⟨m, rfl⟩ : ∃ m, n = m + 1 := ⟨n - 1, by omega⟩
      simp [List.range'_succ]
    · have hn0 : n = 0 := by omega
      subst hn0
      rw [if_neg hn]
      simp [List.range']

/-- C1 (amended): the bounded-retry behaviour lives in the superseded
`LLMClient.classify_email` loop, which under persistent parse failure
makes exactly `max_retries` external attempts with exponential backoff
and returns no result; the current `GeminiClient.classify_email` instead
makes exactly one external attempt on a parse failure and returns no
result, with no retry. -/
theorem retry_bound_amended :
    (∀ (outcome : ℕ → AttemptOutcome) (max_retries : ℕ),
      (∀ i, outcome i = AttemptOutcome.parseFail) →
      llm_retry_loop outcome max_retries =
        (none, max_retries, (List.range (max_retries - 1)).map (fun i => (2 : ℚ) ^ i))) ∧
    (∀ (sha256hex : String → String) (jsonLoads : String → Option JsonObj)
        (pyFloat : JsonVal → Option ℚ) (text : String) (st : GeminiState)
        (sender subject body : String) (now : ℚ),
      st.cache = none → 1 ≤ st.max_requests →
      parse_gemini_response jsonLoads text = none →
      (classify_email sha256hex jsonLoads pyFloat (ApiResult.ok (some text))
          st sender subject body now).1 = none ∧
        (classify_email sha256hex jsonLoads pyFloat (ApiResult.ok (some text))
          st sender subject body now).2.2 = 1) := by
  constructor
  · intro outcome max_retries h
    rw [llm_retry_loop, retry_go_parse_fail outcome h max_retries 0, List.range_eq_range']
  · intro sha256hex jsonLoads pyFloat text st sender subject body now hc hmax hparse
    obtain ⟨r', n', heq, _, _⟩ :=
      waitAux_succeeds st.max_requests st.time_window hmax (st.requests.length + 1)
        st.requests now (by omega)
    constructor <;>
      simp [classify_email, hc, wait_if_needed, heq, hparse]

/-- C1 witness for the amended statement: three persistent parse
failures in the retry loop yield three calls with backoff sleeps 1s and
2s, and the current client's single failing attempt yields no result. -/
theorem retry_bound_amended_witness :
    llm_retry_loop (fun _ => AttemptOutcome.parseFail) 3 = (none, 3, [1, 2]) ∧
      (classify_email (fun s => s) (fun _ => none) (fun _ => none)
        (ApiResult.ok (some "oops")) ⟨"m", 1, 60, [], none, ⟨0, 0, 0, 0, 0, 0⟩⟩
        "a" "b" "c" 0).1 = none := by
  constructor
  · rw [retry_bound_amended.1 (fun _ => AttemptOutcome.parseFail) 3 (fun _ => rfl)]
    norm_num [List.range_succ]
  · exact (retry_bound_amended.2 (fun s => s) (fun _ => none) (fun _ => none) "oops"
      ⟨"m", 1, 60, [], none, ⟨0, 0, 0, 0, 0, 0⟩⟩ "a" "b" "c" 0 rfl (by decide) rfl).1

/-- C1 counterexample: with a response that always fails parsing, the
current client attempts the external call exactly once -- not
`max_retries` (= 3, the configured maximum of the superseded retrying
client) times -- before returning no result. -/
theorem gemini_single_attempt_counterexample :
    (classify_email (fun s => s) (fun _ => none) (fun _ => none)
        (ApiResult.ok (some "not json"))
        ⟨"gemini-1.5-flash", 60, 60, [], none, ⟨0, 0, 0, 0, 0, 0⟩⟩ "s" "j" "b" 0).1 = none ∧
      (classify_email (fun s => s) (fun _ => none) (fun _ => none)
        (ApiResult.ok (some "not json"))
        ⟨"gemini-1.5-flash", 60, 60, [], none, ⟨0, 0, 0, 0, 0, 0⟩⟩ "s" "j" "b" 0).2.2 = 1 ∧
      (1 : ℕ) ≠ 3 := by
  refine ⟨by decide, by decide, by decide⟩

/-- C7 (amended): `process_email` applies `redact_pii` to the sender, to
every recipient, and to the body (truncated to the 2000-character
excerpt) before the event is emitted and before the outbound classify
call -- but the subject is passed through unredacted, both into the
event and into the outbound request. -/
theorem process_email_redaction (sha256hex : String → String)
    (f : String → String → String → Except String (Option LLMResult))
    (timestamp : String) (d : EmailData) :
    ((process_email sha256hex (some f) "llm" timestamp d).1.sender = redact_pii d.from_) ∧
    ((process_email sha256hex (some f) "llm" timestamp d).1.recipients =
      d.to_.map redact_pii) ∧
    ((process_email sha256hex (some f) "llm" timestamp d).1.body_excerpt =
      (if 2000 < (redact_pii d.body).length then pyTake (redact_pii d.body) 2000
       else redact_pii d.body)) ∧
    ((process_email sha256hex (some f) "llm" timestamp d).1.subject = d.subject) ∧
    ((process_email sha256hex (some f) "llm" timestamp d).2 =
      some (redact_pii d.from_, d.subject,
        if 2000 < (redact_pii d.body).length then pyTake (redact_pii d.body) 2000
        else redact_pii d.body)) :=
  ⟨rfl, rfl, rfl, rfl, rfl⟩

/-- C7 counterexample: a subject containing an e-mail address reaches the
emitted event and the outbound classify request verbatim, even though
`redact_pii` would have replaced the address. -/
theorem process_email_subject_not_redacted :
    (process_email (fun s => s) (some (fun _ _ _ => Except.ok none)) "llm" "ts"
        ⟨"someone", [], "lien he a@b.vn", "hi", none⟩).1.subject = "lien he a@b.vn" ∧
      redact_pii "lien he a@b.vn" = "lien he [EMAIL_REDACTED]" ∧
      ¬ ((process_email (fun s => s) (some (fun _ _ _ => Except.ok none)) "llm" "ts"
          ⟨"someone", [], "lien he a@b.vn", "hi", none⟩).1.subject =
        redact_pii "lien he a@b.vn") ∧
      (process_email (fun s => s) (some (fun _ _ _ => Except.ok none)) "llm" "ts"
          ⟨"someone", [], "lien he a@b.vn", "hi", none⟩).2 =
        some ("someone", "lien he a@b.vn", "hi") := by
  refine ⟨rfl, by decide, by decide, by decide⟩
